import Mathlib

/-!
# Verification of the FINN.no scraper (`finn_api.py`)

Shallow embedding of the extraction engine and search / pagination protocol of
the `FinnClient` class, together with proofs about the behaviour its
specification describes.

Modelling conventions:
* Python strings are `List Char`; HTML pages and URLs are `List Char`.
* Machine integers are `Int` / `Nat` (Python integers are unbounded).
* Fallible code returns `Except PyExn _`; `.error` models a raised exception.
* Regular expressions are embedded as direct scanning functions.  Every pattern
  used by the source is deterministic at a fixed start position except the
  image sub-pattern, whose `[^}]*` gaps are modelled with explicit greedy
  backtracking; doc comments on each function quote the regex it embeds.
* Character classes (`\d`, `\s`) are modelled on code points, `\s` as the set
  of Unicode whitespace characters that Python's `re` and `int()` treat as
  whitespace.
-/

namespace Finn

/-- Exceptions the embedded code can raise.  `transportError` stands for
`requests.RequestException` (network / non-2xx after retry exhaustion, the
spec's `TransportError`); `valueError` for `ValueError` (failed `int()` /
`float()`); `typeError` for `TypeError` (dataclass constructor missing a
required argument); `missingRequiredField` for the `KeyError` raised when a
raw record lacks `id` (the spec's `MissingRequiredFieldError`). -/
inductive PyExn where
  | transportError
  | valueError
  | typeError
  | missingRequiredField
  deriving DecidableEq, Repr

/-- The regex class `\d` (on the code points `'0'..'9'`). -/
def isPyDigit (c : Char) : Bool := 48 ≤ c.toNat && c.toNat ≤ 57

/-- The regex class `\s` of Python `re` on `str`, i.e. Unicode whitespace;
also the set of characters `int()` strips from both ends of its argument. -/
def isPySpace (c : Char) : Bool :=
  let n := c.toNat
  n = 32 || n = 9 || n = 10 || n = 11 || n = 12 || n = 13 ||
  n = 28 || n = 29 || n = 30 || n = 31 || n = 0x85 || n = 0xa0 ||
  n = 0x1680 || (0x2000 ≤ n && n ≤ 0x200a) ||
  n = 0x2028 || n = 0x2029 || n = 0x202f || n = 0x205f || n = 0x3000

/-- Numeric value of a run of ASCII digits. -/
def digitsToNat (s : List Char) : Nat :=
  s.foldl (fun acc c => acc * 10 + (c.toNat - 48)) 0

/-- Whitespace stripped from both ends of a string, as Python `int()` does. -/
def pyStrip (s : List Char) : List Char :=
  ((s.dropWhile isPySpace).reverse.dropWhile isPySpace).reverse

/-- Model of Python `int(s)` on a decimal string: strip surrounding
whitespace, allow one optional sign, then require a nonempty all-digit run;
`none` models a raised `ValueError`.  (Underscore digit-group separators are
accepted by Python but can never occur in the strings the scraper passes in,
whose characters come from the classes `\d` and `\s`; they are not modelled.) -/
def pyIntParse (s : List Char) : Option Int :=
  match pyStrip s with
  | [] => none
  | '-' :: d => if d ≠ [] && d.all isPyDigit then some (-(digitsToNat d : Int)) else none
  | '+' :: d => if d ≠ [] && d.all isPyDigit then some ((digitsToNat d : Int)) else none
  | d => if d.all isPyDigit then some ((digitsToNat d : Int)) else none

/-! ## Count Extractor (`FinnClient._extract_total_count`) -/

/-- Literal prefix of the primary count pattern `Du finner (\d+[\s\d]*)`. -/
def duFinnerLit : List Char := "Du finner ".data

/-- Whether the primary count pattern matches anchored at the head of `s`:
the literal `Du finner ` followed by at least one digit. -/
def p1At (s : List Char) : Bool :=
  duFinnerLit.isPrefixOf s &&
    (match s.drop duFinnerLit.length with
     | c :: _ => isPyDigit c
     | [] => false)

/-- Capture of the primary pattern at a match position: `\d+[\s\d]*` takes the
maximal run of digits and whitespace starting at the first digit (overall
greedy; nothing follows the group, so no backtracking can occur). -/
def p1Cap (s : List Char) : List Char :=
  (s.drop duFinnerLit.length).takeWhile (fun c => isPyDigit c || isPySpace c)

/-- `re.search` for the primary count pattern: the leftmost match wins. -/
def p1Search : List Char → Option (List Char)
  | [] => none
  | c :: t => if p1At (c :: t) then some (p1Cap (c :: t)) else p1Search t

/-- ASCII case fold used to model `re.IGNORECASE` on the ASCII keywords. -/
def lowerAscii (c : Char) : Char :=
  if 65 ≤ c.toNat && c.toNat ≤ 90 then Char.ofNat (c.toNat + 32) else c

/-- The alternation `(?:treff|boliger|leieobjekter)` of the secondary count
pattern, compared case-insensitively against the head of `s`. -/
def p2Keyword (s : List Char) : Bool :=
  let l := s.map lowerAscii
  "treff".data.isPrefixOf l || "boliger".data.isPrefixOf l ||
    "leieobjekter".data.isPrefixOf l

/-- The secondary count pattern `(\d+)\s*(?:treff|boliger|leieobjekter)`
anchored at the head of `s`: maximal digit run, maximal whitespace run, then a
keyword.  (Backtracking cannot produce a different capture: shortening `\d+`
leaves a digit where the keyword would have to start, and no keyword starts
with whitespace.) -/
def p2At (s : List Char) : Option (List Char) :=
  if s.takeWhile isPyDigit = [] then none
  else
    if p2Keyword ((s.drop (s.takeWhile isPyDigit).length).drop
        ((s.drop (s.takeWhile isPyDigit).length).takeWhile isPySpace).length) then
      some (s.takeWhile isPyDigit)
    else none

/-- `re.search` for the secondary count pattern: the leftmost match wins. -/
def p2Search : List Char → Option (List Char)
  | [] => none
  | c :: t =>
      match p2At (c :: t) with
      | some d => some d
      | none => p2Search t

/-- `count_str.replace(" ", "").replace("\xa0", "")`. -/
def stripSeparators (s : List Char) : List Char :=
  s.filter (fun c => !(c = ' ' || c = '\xa0'))

/-- `FinnClient._extract_total_count`: try the primary pattern (its capture is
stripped of ordinary and non-breaking spaces and handed to `int()`, which can
raise `ValueError`); else the secondary pattern (capture handed to `int()`);
else `0`. -/
def extract_total_count (html : List Char) : Except PyExn Int :=
  match p1Search html with
  | some g =>
      match pyIntParse (stripSeparators g) with
      | some n => .ok n
      | none => .error .valueError
  | none =>
      match p2Search html with
      | some d =>
          match pyIntParse d with
          | some n => .ok n
          | none => .error .valueError
      | none => .ok 0

/-- Python's substring test `needle in haystack`. -/
def listContains : List Char → List Char → Bool
  | [], needle => needle.isEmpty
  | hay@(_ :: t), needle => needle.isPrefixOf hay || listContains t needle

/-! ## Character-class facts -/

theorem isPySpace_eq_false_of_isPyDigit {c : Char} (h : isPyDigit c = true) :
    isPySpace c = false := by
  simp only [isPyDigit, Bool.and_eq_true, decide_eq_true_eq] at h
  simp only [isPySpace, Bool.or_eq_false_iff, decide_eq_false_iff_not, Bool.and_eq_false_iff,
    decide_eq_false_iff_not]
  omega

theorem ne_sign_of_digit_or_space {c : Char}
    (h : isPyDigit c = true ∨ isPySpace c = true) : c ≠ '-' ∧ c ≠ '+' := by
  constructor <;> rintro rfl <;> revert h <;> decide

/-! ## `pyStrip` / `pyIntParse` facts -/

theorem mem_pyStrip {s : List Char} {c : Char} (h : c ∈ pyStrip s) : c ∈ s := by
  unfold pyStrip at h
  rw [List.mem_reverse] at h
  have h1 := (@List.dropWhile_suffix Char ((s.dropWhile isPySpace).reverse) isPySpace).subset h
  rw [List.mem_reverse] at h1
  exact (@List.dropWhile_suffix Char s isPySpace).subset h1

theorem dropWhile_eq_self_of_all_false {p : Char → Bool} :
    ∀ {l : List Char}, (∀ c ∈ l, p c = false) → l.dropWhile p = l
  | [], _ => rfl
  | a :: l, h => by
      simp [List.dropWhile_cons, h a (List.mem_cons_self a l)]

theorem pyStrip_eq_self_of_no_space {s : List Char}
    (h : ∀ c ∈ s, isPySpace c = false) : pyStrip s = s := by
  unfold pyStrip
  rw [dropWhile_eq_self_of_all_false h]
  rw [dropWhile_eq_self_of_all_false (fun c hc => h c (List.mem_reverse.mp hc))]
  exact List.reverse_reverse s

theorem pyIntParse_nonneg {s : List Char} (hs : ∀ c ∈ s, c ≠ '-')
    {n : Int} (h : pyIntParse s = some n) : 0 ≤ n := by
  unfold pyIntParse at h
  cases hst : pyStrip s with
  | nil => rw [hst] at h; cases h
  | cons a t =>
      rw [hst] at h
      have ha : a ≠ '-' := hs a (mem_pyStrip (hst ▸ List.mem_cons_self a t))
      split at h
      · exact absurd ‹a :: t = []› (List.cons_ne_nil a t)
      · rename_i d heq
        rw [List.cons.injEq] at heq
        exact absurd heq.1 ha
      · split at h
        · injection h with h'
          exact h' ▸ Int.natCast_nonneg _
        · cases h
      · split at h
        · injection h with h'
          exact h' ▸ Int.natCast_nonneg _
        · cases h

theorem pyIntParse_digits {d : List Char} (hne : d ≠ [])
    (hall : ∀ c ∈ d, isPyDigit c = true) :
    pyIntParse d = some ((digitsToNat d : Int)) := by
  have hstrip : pyStrip d = d :=
    pyStrip_eq_self_of_no_space (fun c hc => isPySpace_eq_false_of_isPyDigit (hall c hc))
  unfold pyIntParse
  rw [hstrip]
  cases d with
  | nil => exact absurd rfl hne
  | cons a t =>
      have ha := ne_sign_of_digit_or_space (Or.inl (hall a (List.mem_cons_self a t)))
      split
      · exact absurd ‹a :: t = []› (List.cons_ne_nil a t)
      · rename_i d heq
        rw [List.cons.injEq] at heq
        exact absurd heq.1 ha.1
      · rename_i d heq
        rw [List.cons.injEq] at heq
        exact absurd heq.1 ha.2
      · rw [if_pos (show ((a :: t).all isPyDigit) = true by simpa [List.all_eq_true] using hall)]

/-! ## Count-extractor lemmas -/

theorem p1Search_chars {html g : List Char} (h : p1Search html = some g) :
    ∀ c ∈ g, isPyDigit c = true ∨ isPySpace c = true := by
  induction html with
  | nil => cases h
  | cons a t ih =>
      rw [p1Search] at h
      split at h
      · injection h with h'
        intro c hc
        have := List.mem_takeWhile_imp (h' ▸ hc)
        simpa [Bool.or_eq_true] using this
      · exact ih h

theorem p2At_digits {s d : List Char} (h : p2At s = some d) :
    d ≠ [] ∧ ∀ c ∈ d, isPyDigit c = true := by
  unfold p2At at h
  split at h
  · cases h
  · split at h
    · injection h with h'
      subst h'
      refine ⟨by assumption, fun c hc => List.mem_takeWhile_imp hc⟩
    · cases h

theorem p2Search_digits {html d : List Char} (h : p2Search html = some d) :
    d ≠ [] ∧ ∀ c ∈ d, isPyDigit c = true := by
  induction html with
  | nil => cases h
  | cons a t ih =>
      rw [p2Search] at h
      split at h
      · rename_i d' heq
        injection h with h'
        exact h' ▸ p2At_digits heq
      · exact ih h

theorem extract_total_count_nonneg {html : List Char} {n : Int}
    (h : extract_total_count html = .ok n) : 0 ≤ n := by
  cases hp1 : p1Search html with
  | some g =>
      simp only [extract_total_count, hp1] at h
      cases hpi : pyIntParse (stripSeparators g) with
      | none => simp only [hpi] at h; exact absurd h (by simp)
      | some m =>
          simp only [hpi, Except.ok.injEq] at h
          subst h
          refine pyIntParse_nonneg (fun c hc => ?_) hpi
          have hc' := p1Search_chars hp1 c (List.mem_of_mem_filter hc)
          exact (ne_sign_of_digit_or_space hc').1
  | none =>
      simp only [extract_total_count, hp1] at h
      cases hp2 : p2Search html with
      | some d =>
          obtain ⟨hne, hall⟩ := p2Search_digits hp2
          simp only [hp2, pyIntParse_digits hne hall, Except.ok.injEq] at h
          exact h ▸ Int.natCast_nonneg _
      | none =>
          simp only [hp2, Except.ok.injEq] at h
          omega

/-- **C3 (corrected).** `_extract_total_count` returns `0` when neither count
pattern matches, and any value it returns is non-negative; but it is not
exception-free: when the primary pattern's captured group contains embedded
whitespace other than an ordinary space or a non-breaking space (which are the
only characters stripped before `int()`), the `int()` call raises `ValueError`,
and that is its only failure mode. -/
theorem c3_count_amended (html : List Char) :
    (p1Search html = none → p2Search html = none → extract_total_count html = .ok 0)
    ∧ (∀ n : Int, extract_total_count html = .ok n → 0 ≤ n)
    ∧ (∀ e : PyExn, extract_total_count html = .error e →
        e = .valueError ∧
          ∃ g, p1Search html = some g ∧ pyIntParse (stripSeparators g) = none) := by
  refine ⟨fun h1 h2 => by rw [extract_total_count, h1, h2], ?_, ?_⟩
  · exact fun n h => extract_total_count_nonneg h
  · intro e h
    cases hp1 : p1Search html with
    | some g =>
        simp only [extract_total_count, hp1] at h
        cases hpi : pyIntParse (stripSeparators g) with
        | none =>
            simp only [hpi, Except.error.injEq] at h
            exact ⟨h.symm, g, rfl, hpi⟩
        | some m => simp only [hpi] at h; exact absurd h (by simp)
    | none =>
        simp only [extract_total_count, hp1] at h
        cases hp2 : p2Search html with
        | some d =>
            obtain ⟨hne, hall⟩ := p2Search_digits hp2
            simp only [hp2, pyIntParse_digits hne hall] at h
            exact absurd h (by simp)
        | none =>
            simp only [hp2] at h
            exact absurd h (by simp)

/-- Witness for the amended C3 theorem on concrete inputs: an input with no
count signal yields `0`, and a well-formed count yields its value. -/
theorem c3_count_amended_witness :
    extract_total_count ("<html></html>").data = .ok 0 ∧
    extract_total_count ("Du finner 12 treff").data = .ok 12 :=
  ⟨(c3_count_amended _).1 rfl rfl, rfl⟩

/-- **C3 counterexample.** The claim says `_extract_total_count` never raises,
but on HTML whose digit group embeds a newline (matched by `[\s\d]*` yet not
stripped, since only `" "` and `"\xa0"` are replaced), `int()` raises
`ValueError`: the call fails instead of degrading to `0`. -/
theorem c3_count_counterexample :
    extract_total_count ("Du finner 1\n2").data = .error .valueError := rfl

/-! ## C8: the localized count phrase -/

/-- The serialized phrase `Du finner 1␣234 treff` with an arbitrary character
in the digit-group-separator position. -/
def duPhrase (sep : Char) : List Char :=
  "Du finner 1".data ++ sep :: "234 treff".data

/-- `re.search` scans left to right: if no position inside the prefix `p`
starts a match of the primary pattern, the search continues in `x`. -/
theorem p1Search_append_of_no_early (p x : List Char)
    (h : ∀ i < p.length, p1At ((p ++ x).drop i) = false) :
    p1Search (p ++ x) = p1Search x := by
  induction p with
  | nil => rfl
  | cons c t ih =>
      have h0 : p1At (c :: (t ++ x)) = false := by simpa using h 0 (by simp)
      show p1Search (c :: (t ++ x)) = p1Search x
      rw [p1Search, h0]
      simp only [Bool.false_eq_true, if_false]
      exact ih (fun i hi => by simpa using h (i + 1) (by simpa using Nat.succ_lt_succ hi))

/-- **C8 counterexample.** The claim quantifies over every HTML input that
contains the phrase; but when an earlier occurrence of the primary count
pattern precedes the phrase, extraction returns that earlier count, not
`1234`. -/
theorem c8_phrase_counterexample :
    listContains ("Du finner 5 treff Du finner 1 234 treff").data
        ("Du finner 1 234 treff").data = true
    ∧ extract_total_count ("Du finner 5 treff Du finner 1 234 treff").data = .ok 5
    ∧ (5 : Int) ≠ 1234 :=
  ⟨rfl, rfl, by decide⟩

/-- **C8 (corrected).** For HTML of the form `p ++ "Du finner 1␣234 treff" ++ s`
where the separator `␣` is an ordinary space or a non-breaking space and no
position inside `p` starts a match of the primary pattern, count extraction
returns `1234`: the separator is stripped before `int()` parsing. -/
theorem c8_phrase_amended (p s : List Char) (sep : Char)
    (hsep : sep = ' ' ∨ sep = '\xa0')
    (hEarly : ∀ i < p.length, p1At ((p ++ (duPhrase sep ++ s)).drop i) = false) :
    extract_total_count (p ++ (duPhrase sep ++ s)) = .ok 1234 := by
  have hsearch : p1Search (p ++ (duPhrase sep ++ s)) = p1Search (duPhrase sep ++ s) :=
    p1Search_append_of_no_early p _ hEarly
  rcases hsep with rfl | rfl
  · have hx : p1Search (duPhrase ' ' ++ s) = some ("1 234 ".data) := rfl
    rw [extract_total_count, hsearch, hx]
    rfl
  · have hx : p1Search (duPhrase '\xa0' ++ s) = some ('1' :: '\xa0' :: "234 ".data) := rfl
    rw [extract_total_count, hsearch, hx]
    rfl

/-- Witness for the amended C8 theorem: the bare phrase, with each of the two
separator characters, yields `1234`. -/
theorem c8_phrase_amended_witness :
    extract_total_count (duPhrase ' ') = .ok 1234
    ∧ extract_total_count (duPhrase '\xa0') = .ok 1234 := by
  constructor
  · have := c8_phrase_amended [] [] ' ' (Or.inl rfl)
      (fun i hi => absurd hi (Nat.not_lt_zero i))
    simpa using this
  · have := c8_phrase_amended [] [] '\xa0' (Or.inr rfl)
      (fun i hi => absurd hi (Nat.not_lt_zero i))
    simpa using this

/-! ## Fragment Extractor (`FinnClient._extract_listings`) -/

/-- Consume a literal: `some` of the rest of the input iff `lit` is a prefix. -/
def expectLit (lit s : List Char) : Option (List Char) :=
  if lit.isPrefixOf s then some (s.drop lit.length) else none

/-- The literal `\x7b"type":"realestate"` passed to `html.find` to locate the
next listing object (the fallback window bound). -/
def anchorLit0 : List Char := "\x7b\"type\":\"realestate\"".data

/-- Head literal of the anchor pattern, up to the `id` capture. -/
def anchorLit1 : List Char := "\x7b\"type\":\"realestate\",\"id\":\"".data

/-- Literal between the `id` and `main_search_key` captures. -/
def litMsk : List Char := "\",\"main_search_key\":\"".data

/-- Literal between the `main_search_key` and `heading` captures. -/
def litHeading : List Char := "\",\"heading\":\"".data

/-- Literal between the `heading` and `location` captures. -/
def litLocation : List Char := "\",\"location\":\"".data

/-- The four capture groups of the anchor pattern. -/
structure AnchorCaps where
  id : List Char
  msk : List Char
  heading : List Char
  loc : List Char
  deriving Repr, DecidableEq

/-- The anchor pattern
`\x7b"type":"realestate","id":"(\d+)","main_search_key":"([^"]+)","heading":"([^"]+)","location":"([^"]*)"`
anchored at the head of `s`: literals interleaved with greedy captures.  Each
capture class excludes the `"` that begins the following literal, so the
greedy scan is exact (no backtracking can succeed where it fails).  Returns
the captures and the number of characters consumed. -/
def anchorAt (s : List Char) : Option (AnchorCaps × Nat) :=
  match expectLit anchorLit1 s with
  | none => none
  | some r1 =>
    let idd := r1.takeWhile isPyDigit
    if idd = [] then none
    else match expectLit litMsk (r1.drop idd.length) with
      | none => none
      | some r2 =>
        let msk := r2.takeWhile (· ≠ '"')
        if msk = [] then none
        else match expectLit litHeading (r2.drop msk.length) with
          | none => none
          | some r3 =>
            let hd := r3.takeWhile (· ≠ '"')
            if hd = [] then none
            else match expectLit litLocation (r3.drop hd.length) with
              | none => none
              | some r4 =>
                let loc := r4.takeWhile (· ≠ '"')
                match expectLit ['"'] (r4.drop loc.length) with
                | none => none
                | some _ =>
                    some ({ id := idd, msk := msk, heading := hd, loc := loc },
                      anchorLit1.length + idd.length + litMsk.length + msk.length +
                        litHeading.length + hd.length + litLocation.length + loc.length + 1)

/-- One match of `re.finditer` over the anchor pattern: absolute start and end
positions and the captures. -/
structure AMatch where
  start : Nat
  stop : Nat
  caps : AnchorCaps
  deriving Repr, DecidableEq

/-- The identifier captured by a match, as a string (`match.group(1)`). -/
def idOf (m : AMatch) : String := ⟨m.caps.id⟩

/-- `re.finditer` scan: try the anchor at each position, left to right; after a
match, continue at its end (matches do not overlap).  Each step consumes at
least one character, so `fuel = length` suffices. -/
def scanAux : Nat → List Char → Nat → List AMatch
  | 0, _, _ => []
  | fuel + 1, s, pos =>
      match anchorAt s with
      | some r =>
          { start := pos, stop := pos + r.2, caps := r.1 } ::
            scanAux fuel (s.drop r.2) (pos + r.2)
      | none => if s.isEmpty then [] else scanAux fuel (s.drop 1) (pos + 1)

/-- All anchor matches of the page, in position order. -/
def finditerAnchor (html : List Char) : List AMatch := scanAux html.length html 0

/-- `str.find(needle, i)` (scanning the suffix, reporting absolute index). -/
def findLitAux (needle : List Char) : List Char → Nat → Option Nat
  | [], i => if needle.isEmpty then some i else none
  | s@(_ :: t), i => if needle.isPrefixOf s then some i else findLitAux needle t (i + 1)

/-- The fragment window of a match: from its start to the next
`\x7b"type":"realestate"` found from `start + 10` on, or `start + 2000` if
there is none (`html[start_pos:end_marker]`). -/
def chunkOf (html : List Char) (m : AMatch) : List Char :=
  match findLitAux anchorLit0 (html.drop (m.start + 10)) (m.start + 10) with
  | some e => (html.drop m.start).take (e - m.start)
  | none => (html.drop m.start).take (m.start + 2000 - m.start)

/-- The nested image object extracted from a fragment window. -/
structure RawImage where
  url : String
  path : String
  height : Nat
  width : Nat
  deriving Repr, DecidableEq

/-- Head literal of the image sub-pattern. -/
def imgLit1 : List Char := "\"image\":\x7b\"url\":\"".data

/-- Literal before the `path` capture of the image sub-pattern. -/
def pathLit : List Char := "\"path\":\"".data

/-- Literal before the `height` capture of the image sub-pattern. -/
def heightLit : List Char := "\"height\":".data

/-- Literal before the `width` capture of the image sub-pattern. -/
def widthLit : List Char := "\"width\":".data

/-- First hit of `f` over a candidate list (backtracking search order). -/
def firstSome {α : Type} (f : Nat → Option α) : List Nat → Option α
  | [] => none
  | j :: js =>
      match f j with
      | some a => some a
      | none => firstSome f js

/-- Candidate lengths for a greedy `[^\x7d]*` gap, longest first: any prefix of
the maximal run of non-`\x7d` characters. -/
def gapCands (s : List Char) : List Nat :=
  (List.range ((s.takeWhile (· ≠ '\x7d')).length + 1)).reverse

/-- The image sub-pattern
`"image":\x7b"url":"([^"]+)"[^\x7d]*"path":"([^"]*)"[^\x7d]*"height":(\d+)[^\x7d]*"width":(\d+)`
anchored at the head of `s`, with the three `[^\x7d]*` gaps tried greedily
(longest first) and full backtracking across them.  (Shrinking the greedy
`(\d+)` of `height` cannot yield a match the maximal run misses, because the
freed digits land in positions where the literal `"width":` cannot start, so
taking the maximal digit run is exact.) -/
def imageAt (s : List Char) : Option RawImage :=
  match expectLit imgLit1 s with
  | none => none
  | some s1 =>
    let url := s1.takeWhile (· ≠ '"')
    if url = [] then none
    else match expectLit ['"'] (s1.drop url.length) with
      | none => none
      | some s2 =>
          firstSome (fun j =>
            match expectLit pathLit (s2.drop j) with
            | none => none
            | some s3 =>
              let path := s3.takeWhile (· ≠ '"')
              match expectLit ['"'] (s3.drop path.length) with
              | none => none
              | some s4 =>
                  firstSome (fun j2 =>
                    match expectLit heightLit (s4.drop j2) with
                    | none => none
                    | some s5 =>
                      let hd := s5.takeWhile isPyDigit
                      if hd = [] then none
                      else
                        firstSome (fun j3 =>
                          match expectLit widthLit ((s5.drop hd.length).drop j3) with
                          | none => none
                          | some s6 =>
                            let wd := s6.takeWhile isPyDigit
                            if wd = [] then none
                            else some { url := ⟨url⟩, path := ⟨path⟩,
                                        height := digitsToNat hd, width := digitsToNat wd })
                          (gapCands (s5.drop hd.length)))
                    (gapCands s4))
            (gapCands s2)

/-- `re.search` for the image sub-pattern over the fragment window. -/
def imageSearch : List Char → Option RawImage
  | [] => none
  | s@(_ :: t) =>
      match imageAt s with
      | some r => some r
      | none => imageSearch t

/-- Head literal of the flags sub-pattern `"flags":\[([^\]]*)\]`. -/
def flagsLit : List Char := "\"flags\":[".data

/-- The flags sub-pattern anchored at the head of `s`: the literal, a greedy
run of non-`]` characters, then `]` (deterministic: a shorter run would put a
non-`]` character where `]` is required). -/
def flagsAt (s : List Char) : Option (List Char) :=
  match expectLit flagsLit s with
  | none => none
  | some r =>
    let inner := r.takeWhile (· ≠ ']')
    if (r.drop inner.length).isEmpty then none else some inner

/-- `re.search` for the flags sub-pattern over the fragment window. -/
def flagsSearch : List Char → Option (List Char)
  | [] => none
  | s@(_ :: t) =>
      match flagsAt s with
      | some r => some r
      | none => flagsSearch t

/-- `re.findall('"([^"]+)"', flags_str)`: every non-overlapping quoted
nonempty run.  Each step consumes at least one character, so
`fuel = length` suffices. -/
def findallQuoted : Nat → List Char → List (List Char)
  | 0, _ => []
  | fuel + 1, s =>
      match s with
      | [] => []
      | c :: t =>
          if c = '"' then
            if ((t.takeWhile (· ≠ '"')).isEmpty = false)
                && ((t.drop (t.takeWhile (· ≠ '"')).length).isEmpty = false) then
              t.takeWhile (· ≠ '"') ::
                findallQuoted fuel (t.drop ((t.takeWhile (· ≠ '"')).length + 1))
            else findallQuoted fuel t
          else findallQuoted fuel t

/-- `listing["flags"]`: the quoted tags inside the matched `"flags":[...]`
group, or `[]` when the sub-pattern does not match. -/
def extractFlags (chunk : List Char) : List String :=
  match flagsSearch chunk with
  | some inner => (findallQuoted inner.length inner).map (fun l => (⟨l⟩ : String))
  | none => []

/-- A raw record: the loosely-typed dictionary produced by the Fragment
Extractor and consumed by the Record Normalizer.  `none` models an absent
key.  (The normalizer reads further optional keys — `price`, `area`, … —
with `dict.get`; the extractor never writes them.) -/
structure RawRecord where
  id : Option String := none
  main_search_key : Option String := none
  heading : Option String := none
  location : Option String := none
  image : Option RawImage := none
  flags : Option (List String) := none
  price : Option String := none
  price_total : Option Int := none
  price_suggestion : Option String := none
  area : Option String := none
  bedrooms : Option Int := none
  property_type : Option String := none
  timestamp : Option String := none
  labels : Option (List String) := none
  deriving Repr, DecidableEq

/-- The record built for one anchor match: the four anchor captures plus the
best-effort image and flags extracted from the fragment window. -/
def buildRecord (html : List Char) (m : AMatch) : RawRecord :=
  { id := some (idOf m)
    main_search_key := some ⟨m.caps.msk⟩
    heading := some ⟨m.caps.heading⟩
    location := some ⟨m.caps.loc⟩
    image := imageSearch (chunkOf html m)
    flags := some (extractFlags (chunkOf html m)) }

/-- The dedup-by-`seen_ids` loop of `_extract_listings` over the match list. -/
def extractAux (html : List Char) : List AMatch → List String → List RawRecord
  | [], _ => []
  | m :: ms, seen =>
      if idOf m ∈ seen then extractAux html ms seen
      else buildRecord html m :: extractAux html ms (idOf m :: seen)

/-- `FinnClient._extract_listings`. -/
def extract_listings (html : List Char) : List RawRecord :=
  extractAux html (finditerAnchor html) []

/-- The sequence of identifiers of all anchor matches, in match order. -/
def anchorIds (html : List Char) : List String := (finditerAnchor html).map idOf

/-- Modelled from the spec: "deduplicate by identifier — first occurrence
wins, later duplicates are dropped entirely (not merged)", stated on the
match list. -/
def specDedupFirst : List AMatch → List AMatch
  | [] => []
  | m :: ms => m :: specDedupFirst (ms.filter (fun m' => idOf m' ≠ idOf m))
termination_by l => l.length
decreasing_by simpa using Nat.lt_succ_of_le (List.length_filter_le _ ms)

/-- Modelled from the spec: first-occurrence order on a list of identifiers
(each identifier exactly once, at the position of its first occurrence). -/
def specFirstOccurrence : List String → List String
  | [] => []
  | x :: xs => x :: specFirstOccurrence (xs.filter (fun y => y ≠ x))
termination_by l => l.length
decreasing_by simpa using Nat.lt_succ_of_le (List.length_filter_le _ xs)

/-! ## Fragment-extractor lemmas -/

theorem extractAux_eq (html : List Char) :
    ∀ (ms : List AMatch) (seen : List String),
      extractAux html ms seen =
        (specDedupFirst (ms.filter (fun m => idOf m ∉ seen))).map (buildRecord html)
  | [], seen => by simp [extractAux, specDedupFirst]
  | m :: ms, seen => by
      by_cases hmem : idOf m ∈ seen
      · rw [show extractAux html (m :: ms) seen = extractAux html ms seen from by
          simp [extractAux, hmem]]
        rw [extractAux_eq html ms seen]
        congr 2
        simp [List.filter_cons, hmem]
      · have hff : (ms.filter (fun m' => idOf m' ∉ seen)).filter
            (fun m' => idOf m' ≠ idOf m) =
            ms.filter (fun m' => idOf m' ∉ idOf m :: seen) := by
          rw [List.filter_filter]
          apply List.filter_congr
          intro x _
          by_cases h1 : idOf x = idOf m <;> by_cases h2 : idOf x ∈ seen <;>
            simp [h1, h2]
        have hcons : (m :: ms).filter (fun m' => idOf m' ∉ seen) =
            m :: ms.filter (fun m' => idOf m' ∉ seen) := by
          simp [List.filter_cons, hmem]
        rw [show extractAux html (m :: ms) seen =
            buildRecord html m :: extractAux html ms (idOf m :: seen) from by
          simp [extractAux, hmem]]
        rw [extractAux_eq html ms (idOf m :: seen), ← hff, hcons, specDedupFirst,
          List.map_cons]

theorem specDedupFirst_map_idOf :
    ∀ (l : List AMatch), (specDedupFirst l).map idOf = specFirstOccurrence (l.map idOf)
  | [] => by simp [specDedupFirst, specFirstOccurrence]
  | m :: ms => by
      rw [specDedupFirst, List.map_cons, List.map_cons, specFirstOccurrence]
      congr 1
      rw [specDedupFirst_map_idOf (ms.filter (fun m' => idOf m' ≠ idOf m))]
      rw [List.filter_map]
      exact congrArg specFirstOccurrence
        (congrArg (List.map idOf) (List.filter_congr (fun x _ => rfl)))
termination_by l => l.length
decreasing_by simpa using Nat.lt_succ_of_le (List.length_filter_le _ ms)

theorem mem_specFirstOccurrence {x : String} :
    ∀ {l : List String}, x ∈ specFirstOccurrence l → x ∈ l
  | [] => by simp [specFirstOccurrence]
  | y :: ys => by
      rw [specFirstOccurrence]
      intro h
      rcases List.mem_cons.mp h with rfl | h
      · exact List.mem_cons_self _ _
      · exact List.mem_cons_of_mem _
          (List.mem_of_mem_filter (mem_specFirstOccurrence h))
termination_by l => l.length
decreasing_by simpa using Nat.lt_succ_of_le (List.length_filter_le _ ys)

theorem specFirstOccurrence_nodup : ∀ (l : List String), (specFirstOccurrence l).Nodup
  | [] => by simp [specFirstOccurrence]
  | y :: ys => by
      rw [specFirstOccurrence]
      refine List.nodup_cons.mpr ⟨?_, specFirstOccurrence_nodup _⟩
      intro hy
      have := List.mem_filter.mp (mem_specFirstOccurrence hy)
      simp at this
termination_by l => l.length
decreasing_by simpa using Nat.lt_succ_of_le (List.length_filter_le _ ys)

theorem specFirstOccurrence_toFinset :
    ∀ (l : List String), (specFirstOccurrence l).toFinset = l.toFinset
  | [] => by simp [specFirstOccurrence]
  | y :: ys => by
      rw [specFirstOccurrence]
      simp only [List.toFinset_cons, specFirstOccurrence_toFinset (ys.filter (fun z => z ≠ y))]
      ext a
      by_cases ha : a = y <;> simp [ha, List.mem_filter]
termination_by l => l.length
decreasing_by simpa using Nat.lt_succ_of_le (List.length_filter_le _ ys)

theorem mem_extractAux {html : List Char} {r : RawRecord} :
    ∀ {ms : List AMatch} {seen : List String},
      r ∈ extractAux html ms seen → ∃ m ∈ ms, r = buildRecord html m
  | [], _, h => by simp [extractAux] at h
  | m :: ms, seen, h => by
      rw [extractAux] at h
      split at h
      · obtain ⟨m', hm', rfl⟩ := mem_extractAux h
        exact ⟨m', List.mem_cons_of_mem _ hm', rfl⟩
      · rcases List.mem_cons.mp h with rfl | h
        · exact ⟨m, List.mem_cons_self _ _, rfl⟩
        · obtain ⟨m', hm', rfl⟩ := mem_extractAux h
          exact ⟨m', List.mem_cons_of_mem _ hm', rfl⟩

theorem anchorAt_heading_ne_nil {s : List Char} {caps : AnchorCaps} {n : Nat}
    (h : anchorAt s = some (caps, n)) : caps.heading ≠ [] := by
  simp only [anchorAt] at h
  split at h
  · cases h
  · split at h
    · cases h
    · split at h
      · cases h
      · split at h
        · cases h
        · split at h
          · cases h
          · split at h
            · cases h
            · split at h
              · cases h
              · split at h
                · cases h
                · injection h with h'
                  injection h' with hcaps _
                  subst hcaps
                  assumption

theorem mem_scanAux_heading {m : AMatch} :
    ∀ {fuel : Nat} {s : List Char} {pos : Nat},
      m ∈ scanAux fuel s pos → m.caps.heading ≠ []
  | 0, _, _, h => by simp [scanAux] at h
  | fuel + 1, s, pos, h => by
      rw [scanAux] at h
      split at h
      · rename_i r heq
        obtain ⟨caps, n⟩ := r
        rcases List.mem_cons.mp h with rfl | h
        · exact anchorAt_heading_ne_nil heq
        · exact mem_scanAux_heading h
      · split at h
        · simp at h
        · exact mem_scanAux_heading h

/-- **C1 (confirmed).** `_extract_listings` keeps exactly the first anchor
match of each identifier: its output is the first-occurrence deduplication of
the match list (a later duplicate contributes nothing — its record is the one
built from the first match), its identifier sequence is the first-occurrence
sequence of the matched identifiers with no duplicates, and its length is the
number of distinct matched identifiers. -/
theorem c1_extract_dedup (html : List Char) :
    extract_listings html = (specDedupFirst (finditerAnchor html)).map (buildRecord html)
    ∧ (extract_listings html).map RawRecord.id = (specFirstOccurrence (anchorIds html)).map some
    ∧ (specFirstOccurrence (anchorIds html)).Nodup
    ∧ (extract_listings html).length = (anchorIds html).toFinset.card := by
  have hmain : extract_listings html =
      (specDedupFirst (finditerAnchor html)).map (buildRecord html) := by
    rw [extract_listings, extractAux_eq html (finditerAnchor html) []]
    congr 2
    simp
  refine ⟨hmain, ?_, specFirstOccurrence_nodup _, ?_⟩
  · rw [hmain, List.map_map]
    have hid : RawRecord.id ∘ buildRecord html = some ∘ idOf := by
      funext m
      rfl
    rw [hid, ← List.map_map, specDedupFirst_map_idOf, anchorIds]
  · rw [hmain, List.length_map]
    have h1 : (specDedupFirst (finditerAnchor html)).length =
        (specFirstOccurrence (anchorIds html)).length := by
      rw [← List.length_map _ idOf, specDedupFirst_map_idOf, anchorIds]
    rw [h1, ← List.toFinset_card_of_nodup (specFirstOccurrence_nodup (anchorIds html)),
      specFirstOccurrence_toFinset]

/-- A fragment whose serialized heading field is empty: the anchor's heading
group `([^"]+)` cannot match it. -/
def emptyHeadingHtml : List Char :=
  ("\x7b\"type\":\"realestate\",\"id\":\"123\",\"main_search_key\":\"k\"" ++
    ",\"heading\":\"\",\"location\":\"Oslo\"").data

/-- A fragment whose serialized location field is empty: the anchor's location
group `([^"]*)` does match it. -/
def emptyLocationHtml : List Char :=
  ("\x7b\"type\":\"realestate\",\"id\":\"123\",\"main_search_key\":\"k\"" ++
    ",\"heading\":\"Flat\",\"location\":\"\"").data

/-- **C10 (confirmed).** A listing fragment whose heading field is the empty
string is never returned: every extracted record carries a nonempty heading
(the anchor requires at least one character there), the empty-heading fragment
is silently omitted, while the empty-location fragment — identical except that
the emptiness sits in the location field — is extracted. -/
theorem c10_empty_heading :
    (∀ (html : List Char) (r : RawRecord), r ∈ extract_listings html →
        ∃ h : String, r.heading = some h ∧ h ≠ "")
    ∧ extract_listings emptyHeadingHtml = []
    ∧ (extract_listings emptyLocationHtml).map RawRecord.location = [some ""] := by
  refine ⟨?_, rfl, rfl⟩
  intro html r hr
  obtain ⟨m, hm, rfl⟩ := mem_extractAux hr
  refine ⟨⟨m.caps.heading⟩, rfl, ?_⟩
  intro hcontra
  have hm' : m ∈ scanAux html.length html 0 := hm
  exact mem_scanAux_heading hm' (by simpa using congrArg String.data hcontra)

/-- Witness for C10: the record extracted from the empty-location fragment has
the nonempty heading `"Flat"`. -/
theorem c10_empty_heading_witness :
    ∃ h : String,
      (buildRecord emptyLocationHtml
        { start := 0, stop := 84,
          caps := { id := "123".data, msk := "k".data,
                    heading := "Flat".data, loc := [] } }).heading = some h ∧ h ≠ "" := by
  refine c10_empty_heading.1 emptyLocationHtml _ ?_
  show _ ∈ extract_listings emptyLocationHtml
  rw [show extract_listings emptyLocationHtml =
    [buildRecord emptyLocationHtml
      { start := 0, stop := 84,
        caps := { id := "123".data, msk := "k".data,
                  heading := "Flat".data, loc := [] } }] from rfl]
  exact List.mem_singleton.mpr rfl

/-! ## Data model (`SearchType`, `Image`, `ListingBasic`) -/

/-- The `SearchType` enum. -/
inductive SearchType where
  | lettings
  | homes
  | newbuildings
  | plots
  | commercial
  | leisure
  deriving DecidableEq, Repr

/-- `SearchType.value`. -/
def SearchType.value : SearchType → String
  | .lettings => "lettings"
  | .homes => "homes"
  | .newbuildings => "newbuildings"
  | .plots => "plots"
  | .commercial => "commercial"
  | .leisure => "leisure"

/-- `FinnClient.BASE_URL`. -/
def BASE_URL : String := "https://www.finn.no"

/-- `FinnClient.SEARCH_ENDPOINTS` (note `leisuresale`, not `leisure`). -/
def SEARCH_ENDPOINTS : SearchType → String
  | .lettings => "/realestate/lettings/search.html"
  | .homes => "/realestate/homes/search.html"
  | .newbuildings => "/realestate/newbuildings/search.html"
  | .plots => "/realestate/plots/search.html"
  | .commercial => "/realestate/commercial/search.html"
  | .leisure => "/realestate/leisuresale/search.html"

/-- The `Image` dataclass.  `aspect_ratio` is a float in the source; it is
never computed with, so its value is kept as its source text. -/
structure Image where
  url : String
  path : Option String := none
  width : Option Int := none
  height : Option Int := none
  aspect_ratio : Option String := none
  deriving Repr, DecidableEq

/-- The `ListingBasic` dataclass. -/
structure ListingBasic where
  id : String
  heading : String
  location : String
  search_type : String
  url : String
  image : Option Image := none
  price : Option String := none
  price_total : Option Int := none
  price_suggestion : Option String := none
  area : Option String := none
  bedrooms : Option Int := none
  property_type : Option String := none
  flags : List String := []
  timestamp : Option String := none
  labels : List String := []
  deriving Repr, DecidableEq

/-! ## Record Normalizer (`FinnClient._parse_listing`) -/

/-- `FinnClient._parse_listing`.  `data['id']` raises `KeyError` when the key
is absent (the spec's `MissingRequiredFieldError`); every other key is read
with `dict.get` and so cannot fail; the listing URL is always synthesized from
the category and the identifier. -/
def parse_listing (data : RawRecord) (search_type : SearchType) :
    Except PyExn ListingBasic :=
  match data.id with
  | none => .error .missingRequiredField
  | some i =>
      .ok { id := i
            heading := data.heading.getD ""
            location := data.location.getD ""
            search_type := search_type.value
            url := BASE_URL ++ "/realestate/" ++ search_type.value ++
              "/ad.html?finnkode=" ++ i
            image := data.image.map (fun img =>
              { url := img.url
                path := some img.path
                width := some (img.width : Int)
                height := some (img.height : Int)
                aspect_ratio := none })
            price := data.price
            price_total := data.price_total
            price_suggestion := data.price_suggestion
            area := data.area
            bedrooms := data.bedrooms
            property_type := data.property_type
            flags := data.flags.getD []
            timestamp := data.timestamp
            labels := data.labels.getD [] }

/-- **C7 (confirmed).** `_parse_listing` fails — with the missing-required-field
error — exactly when the raw record lacks `id`, and succeeds (preserving the
identifier) for every raw record that has one; no other absent field can make
normalization fail. -/
theorem c7_parse_listing (data : RawRecord) (st : SearchType) :
    (parse_listing data st = .error .missingRequiredField ↔ data.id = none)
    ∧ (∀ e, parse_listing data st = .error e → e = .missingRequiredField)
    ∧ (∀ i, data.id = some i →
        ∃ b : ListingBasic, parse_listing data st = .ok b ∧ b.id = i) := by
  cases h : data.id with
  | none =>
      refine ⟨by simp [parse_listing, h], fun e he => ?_, fun i hi => by simp [h] at hi⟩
      simp only [parse_listing, h, Except.error.injEq] at he
      exact he.symm
  | some i =>
      refine ⟨by simp [parse_listing, h], fun e he => ?_, fun j hj => ?_⟩
      · simp [parse_listing, h] at he
      · simp only [h, Option.some.injEq] at hj
        subst hj
        refine ⟨{ id := i
                  heading := data.heading.getD ""
                  location := data.location.getD ""
                  search_type := st.value
                  url := BASE_URL ++ "/realestate/" ++ st.value ++ "/ad.html?finnkode=" ++ i
                  image := data.image.map (fun img =>
                    { url := img.url
                      path := some img.path
                      width := some (img.width : Int)
                      height := some (img.height : Int)
                      aspect_ratio := none })
                  price := data.price
                  price_total := data.price_total
                  price_suggestion := data.price_suggestion
                  area := data.area
                  bedrooms := data.bedrooms
                  property_type := data.property_type
                  flags := data.flags.getD []
                  timestamp := data.timestamp
                  labels := data.labels.getD [] }, ?_, rfl⟩
        rw [parse_listing.eq_def, h]

/-- A raw record holding only an identifier. -/
def rawSample : RawRecord := { id := some "42" }

/-- Witness for C7 at a concrete raw record. -/
theorem c7_parse_listing_witness :
    ∃ b : ListingBasic,
      parse_listing rawSample SearchType.lettings = .ok b ∧ b.id = "42" :=
  (c7_parse_listing rawSample SearchType.lettings).2.2 "42" rfl

/-! ## Filter/URL Builder (`FinnClient._build_search_url`) -/

/-- A filter value that may be a single code or a list of codes. -/
inductive StrOrList where
  | s (v : String)
  | l (vs : List String)
  deriving Repr, DecidableEq

/-- The `**filters` keyword set read by `_build_search_url`.  `none` models an
absent key; Python falsy values (`0`, `""`, `[]`) are dropped by the builder's
truthiness checks below. -/
structure Filters where
  location : Option StrOrList := none
  price_from : Option Int := none
  price_to : Option Int := none
  area_from : Option Int := none
  area_to : Option Int := none
  no_of_bedrooms_from : Option Int := none
  no_of_bedrooms_to : Option Int := none
  property_type : Option StrOrList := none
  sort : Option String := none
  published : Option String := none
  rent_from : Option Int := none
  rent_to : Option Int := none
  q : Option String := none
  deriving Repr, DecidableEq

/-- A query-parameter value: scalar, or a list emitted as repeated params. -/
inductive ParamV where
  | single (v : String)
  | multi (vs : List String)
  deriving Repr, DecidableEq

/-- `if filters.get(k): params[k] = filters[k]` for an integer filter
(`0` and absence are both falsy). -/
def intParam (k : String) : Option Int → List (String × ParamV)
  | some v => if v ≠ 0 then [(k, .single (toString v))] else []
  | none => []

/-- `if filters.get(k): params[k] = filters[k]` for a string filter
(`""` and absence are both falsy). -/
def strParam (k : String) : Option String → List (String × ParamV)
  | some v => if v ≠ "" then [(k, .single v)] else []
  | none => []

/-- `if filters.get(k):` followed by the `isinstance(str)/isinstance(list)`
branches (`""`, `[]` and absence are all falsy). -/
def slParam (k : String) : Option StrOrList → List (String × ParamV)
  | some (.s v) => if v ≠ "" then [(k, .single v)] else []
  | some (.l vs) => if vs ≠ [] then [(k, .multi vs)] else []
  | none => []

/-- The ordered parameter dictionary built by `_build_search_url` (Python
dicts preserve insertion order; `rent_from`/`rent_to` only for `LETTINGS`;
the keyword `q` is inserted last). -/
def buildParams (st : SearchType) (page : Int) (f : Filters) :
    List (String × ParamV) :=
  (if page > 1 then [("page", ParamV.single (toString page))] else []) ++
  slParam "location" f.location ++
  intParam "price_from" f.price_from ++
  intParam "price_to" f.price_to ++
  intParam "area_from" f.area_from ++
  intParam "area_to" f.area_to ++
  intParam "no_of_bedrooms_from" f.no_of_bedrooms_from ++
  intParam "no_of_bedrooms_to" f.no_of_bedrooms_to ++
  slParam "property_type" f.property_type ++
  strParam "sort" f.sort ++
  strParam "published" f.published ++
  (if st = SearchType.lettings then
      intParam "rent_from" f.rent_from ++ intParam "rent_to" f.rent_to
    else []) ++
  strParam "q" f.q

/-- One dictionary entry rendered as `f"{key}={v}"` strings (a list value
yields one string per element, in order). -/
def paramEntryStrings (kv : String × ParamV) : List (List Char) :=
  match kv.2 with
  | .single v => [kv.1.data ++ "=".data ++ v.data]
  | .multi vs => vs.map (fun v => kv.1.data ++ "=".data ++ v.data)

/-- The flat `param_list`. -/
def paramStrings (ps : List (String × ParamV)) : List (List Char) :=
  (ps.map paramEntryStrings).flatten

/-- `"&".join(param_list)`. -/
def joinAmp : List (List Char) → List Char
  | [] => []
  | [x] => x
  | x :: xs => x ++ "&".data ++ joinAmp xs

/-- `FinnClient._build_search_url`: base URL plus endpoint, plus `?`-joined
parameters when any are present.  Every value is emitted verbatim by an
f-string — nothing is percent-encoded. -/
def build_search_url (st : SearchType) (page : Int) (f : Filters) : List Char :=
  BASE_URL.data ++ (SEARCH_ENDPOINTS st).data ++
    (if buildParams st page f = [] then []
     else "?".data ++ joinAmp (paramStrings (buildParams st page f)))

/-- RFC 3986 unreserved characters (kept verbatim by percent-encoding). -/
def isUnreserved (c : Char) : Bool :=
  isPyDigit c || (65 ≤ c.toNat && c.toNat ≤ 90) || (97 ≤ c.toNat && c.toNat ≤ 122) ||
  c = '-' || c = '.' || c = '_' || c = '~'

/-- Upper-case hexadecimal digit of a value `< 16`. -/
def hexDigit (n : Nat) : Char := if n < 10 then Char.ofNat (48 + n) else Char.ofNat (55 + n)

/-- Modelled from the spec: "keyword search text … must be percent-encoded".
RFC 3986 percent-encoding: unreserved characters pass through, every other
code point becomes `%HH`; in particular a space becomes `%20`. -/
def specPercentEncode : List Char → List Char
  | [] => []
  | c :: t =>
      (if isUnreserved c then [c]
       else ['%', hexDigit (c.toNat / 16 % 16), hexDigit (c.toNat % 16)]) ++
        specPercentEncode t

/-! ## C4: the keyword parameter is not percent-encoded -/

theorem joinAmp_append_singleton (l : List (List Char)) (y : List Char) :
    ∃ pre : List Char, joinAmp (l ++ [y]) = pre ++ y := by
  induction l with
  | nil => exact ⟨[], rfl⟩
  | cons x l ih =>
      obtain ⟨pre, hpre⟩ := ih
      cases l with
      | nil => exact ⟨x ++ "&".data, by simp [joinAmp]⟩
      | cons a l' =>
          refine ⟨x ++ "&".data ++ pre, ?_⟩
          rw [show ((x :: a :: l') ++ [y]) = x :: ((a :: l') ++ [y]) from rfl]
          rw [show joinAmp (x :: ((a :: l') ++ [y])) =
            x ++ "&".data ++ joinAmp ((a :: l') ++ [y]) from rfl]
          rw [hpre]
          simp [List.append_assoc]

theorem paramStrings_append (a b : List (String × ParamV)) :
    paramStrings (a ++ b) = paramStrings a ++ paramStrings b := by
  simp [paramStrings]

/-- **C4 counterexample.** The claim says the keyword text is percent-encoded
in the emitted `q=` parameter; but the builder emits it verbatim: for
`q = "oslo sentrum"` the URL carries the raw space, contains the raw keyword
as a substring, and does not contain its percent-encoding. -/
theorem c4_q_counterexample :
    build_search_url SearchType.lettings 1 { q := some "oslo sentrum" } =
      ("https://www.finn.no/realestate/lettings/search.html?q=oslo sentrum").data
    ∧ specPercentEncode "oslo sentrum".data = ("oslo%20sentrum").data
    ∧ listContains (build_search_url SearchType.lettings 1 { q := some "oslo sentrum" })
        ("oslo sentrum").data = true
    ∧ listContains (build_search_url SearchType.lettings 1 { q := some "oslo sentrum" })
        (specPercentEncode "oslo sentrum".data) = false :=
  ⟨rfl, rfl, rfl, rfl⟩

/-- **C4 (corrected).** No filter value is percent-encoded, including the
keyword text: whenever `q` is a nonempty string, the built URL ends with
`q=` followed by the keyword text verbatim. -/
theorem c4_q_amended (st : SearchType) (page : Int) (f : Filters) (qv : String)
    (hq : f.q = some qv) (hne : qv ≠ "") :
    ∃ pre : List Char, build_search_url st page f = pre ++ "q=".data ++ qv.data := by
  have hqp : strParam "q" f.q = [("q", ParamV.single qv)] := by
    rw [hq]
    simp [strParam, hne]
  have hsplit : buildParams st page f =
      buildParams st page { f with q := none } ++ [("q", ParamV.single qv)] := by
    simp only [buildParams, hqp]
    simp [strParam]
  rw [build_search_url, hsplit]
  rw [if_neg (by simp)]
  rw [paramStrings_append]
  obtain ⟨pre, hpre⟩ := joinAmp_append_singleton
    (paramStrings (buildParams st page { f with q := none }))
    ("q=".data ++ qv.data)
  rw [show paramStrings [("q", ParamV.single qv)] = ["q=".data ++ qv.data] from rfl]
  rw [hpre]
  exact ⟨BASE_URL.data ++ (SEARCH_ENDPOINTS st).data ++ "?".data ++ pre,
    by simp [List.append_assoc]⟩

/-- Witness for the amended C4 theorem at a concrete keyword. -/
theorem c4_q_amended_witness :
    ∃ pre : List Char,
      build_search_url SearchType.lettings 1 { q := some "oslo sentrum" } =
        pre ++ "q=".data ++ ("oslo sentrum").data :=
  c4_q_amended SearchType.lettings 1 { q := some "oslo sentrum" } "oslo sentrum" rfl
    (by decide)

/-! ## Search Orchestrator (`FinnClient.search`) -/

/-- The `SearchResults` dataclass. -/
structure SearchResults where
  items : List ListingBasic
  total_count : Int
  page : Int
  per_page : Int
  has_next_page : Bool
  search_type : String
  filters_applied : Filters
  deriving Repr, DecidableEq

/-- The list comprehension `[self._parse_listing(data, search_type) for data
in listings_data]`: a raised exception aborts the whole comprehension. -/
def parseAll : List RawRecord → SearchType → Except PyExn (List ListingBasic)
  | [], _ => .ok []
  | d :: ds, st =>
      match parse_listing d st with
      | .error e => .error e
      | .ok b =>
          match parseAll ds st with
          | .error e => .error e
          | .ok bs => .ok (b :: bs)

/-- `FinnClient.search`, with the HTTP transport abstracted as
`fetch : url → Except PyExn body` (`_make_request` propagates
`requests` failures to the caller).  Steps in source order: build URL, fetch,
extract listings, extract total count (may raise `ValueError`), normalize,
then assemble with `per_page = 51`,
`total_pages = (total_count + per_page - 1) // per_page if total_count > 0
else 0` and `has_next_page = page < total_pages`. -/
def search (fetch : List Char → Except PyExn (List Char)) (st : SearchType)
    (page : Int) (f : Filters) : Except PyExn SearchResults :=
  match fetch (build_search_url st page f) with
  | .error e => .error e
  | .ok html =>
      match extract_total_count html with
      | .error e => .error e
      | .ok total_count =>
          match parseAll (extract_listings html) st with
          | .error e => .error e
          | .ok listings =>
              .ok { items := listings
                    total_count := total_count
                    page := page
                    per_page := 51
                    has_next_page :=
                      decide (page <
                        (if total_count > 0 then (total_count + 51 - 1).fdiv 51 else 0))
                    search_type := st.value
                    filters_applied := f }

/-- The code's `total_pages` expression equals the mathematical
`⌈total_count / 51⌉` for every non-negative total. -/
theorem totalPages_eq_ceil {t : Int} (ht : 0 ≤ t) :
    (if t > 0 then (t + 51 - 1).fdiv 51 else 0) = ⌈(t : ℚ) / 51⌉ := by
  rcases eq_or_lt_of_le ht with h | h
  · rw [if_neg (by omega), ← h]
    simp
  · rw [if_pos h, Int.fdiv_eq_ediv _ (by norm_num)]
    symm
    rw [Int.ceil_eq_iff]
    have hdm := Int.ediv_add_emod (t + 51 - 1) 51
    have hr0 : 0 ≤ (t + 51 - 1) % 51 := Int.emod_nonneg _ (by norm_num)
    have hr1 : (t + 51 - 1) % 51 < 51 := Int.emod_lt_of_pos _ (by norm_num)
    set q := (t + 51 - 1) / 51 with hq
    constructor
    · rw [lt_div_iff₀ (by norm_num : (0:ℚ) < 51)]
      have hlow : 51 * (q - 1) < t := by omega
      have : ((51 * (q - 1) : Int) : ℚ) < ((t : Int) : ℚ) := by exact_mod_cast hlow
      push_cast at this
      linarith
    · rw [div_le_iff₀ (by norm_num : (0:ℚ) < 51)]
      have hhigh : t ≤ 51 * q := by omega
      have : ((t : Int) : ℚ) ≤ ((51 * q : Int) : ℚ) := by exact_mod_cast hhigh
      push_cast at this
      linarith

/-- **C2 (confirmed).** Every successful search call returns `per_page = 51`
and `has_next_page = true` iff `page < ⌈total_count / per_page⌉`; in
particular a zero total count forces `has_next_page = false` for every
(positive, 1-indexed) page. -/
theorem c2_has_next_page (fetch : List Char → Except PyExn (List Char))
    (st : SearchType) (page : Int) (f : Filters) (r : SearchResults)
    (hok : search fetch st page f = .ok r) (hpage : 1 ≤ page) :
    r.per_page = 51
    ∧ (r.has_next_page = true ↔ r.page < ⌈(r.total_count : ℚ) / (r.per_page : ℚ)⌉)
    ∧ (r.total_count = 0 → r.has_next_page = false) := by
  cases hf : fetch (build_search_url st page f) with
  | error e => simp only [search, hf] at hok; exact absurd hok (by simp)
  | ok html =>
      simp only [search, hf] at hok
      cases hc : extract_total_count html with
      | error e => simp only [hc] at hok; exact absurd hok (by simp)
      | ok t =>
          simp only [hc] at hok
          cases hp : parseAll (extract_listings html) st with
          | error e => simp only [hp] at hok; exact absurd hok (by simp)
          | ok listings =>
              simp only [hp, Except.ok.injEq] at hok
              subst hok
              have ht := extract_total_count_nonneg hc
              refine ⟨rfl, ?_, ?_⟩
              · simp only [decide_eq_true_eq]
                rw [show ((51 : Int) : ℚ) = 51 from by norm_num,
                  ← totalPages_eq_ceil ht]
              · intro h0
                simp only [h0, decide_eq_true_eq] at *
                simp only [decide_eq_false_iff_not]
                omega

/-- A fetch stub returning a fixed page with a count phrase and no listings. -/
def fetchCount : List Char → Except PyExn (List Char) :=
  fun _ => .ok ("Du finner 102 treff").data

/-- Witness for C2 on a concrete search: total 102, page 1, 51 per page —
`has_next_page` is true and `1 < ⌈102/51⌉`. -/
theorem c2_has_next_page_witness :
    ({ items := [], total_count := 102, page := 1, per_page := 51,
       has_next_page := true, search_type := "lettings",
       filters_applied := {} } : SearchResults).per_page = 51
    ∧ (({ items := [], total_count := 102, page := 1, per_page := 51,
          has_next_page := true, search_type := "lettings",
          filters_applied := {} } : SearchResults).has_next_page = true ↔
        ({ items := [], total_count := 102, page := 1, per_page := 51,
           has_next_page := true, search_type := "lettings",
           filters_applied := {} } : SearchResults).page <
          ⌈(({ items := [], total_count := 102, page := 1, per_page := 51,
               has_next_page := true, search_type := "lettings",
               filters_applied := {} } : SearchResults).total_count : ℚ) /
            (({ items := [], total_count := 102, page := 1, per_page := 51,
                has_next_page := true, search_type := "lettings",
                filters_applied := {} } : SearchResults).per_page : ℚ)⌉)
    ∧ (({ items := [], total_count := 102, page := 1, per_page := 51,
          has_next_page := true, search_type := "lettings",
          filters_applied := {} } : SearchResults).total_count = 0 →
        ({ items := [], total_count := 102, page := 1, per_page := 51,
           has_next_page := true, search_type := "lettings",
           filters_applied := {} } : SearchResults).has_next_page = false) :=
  c2_has_next_page fetchCount SearchType.lettings 1 {} _ rfl (by norm_num)

/-! ## Lazy traversal (`FinnClient.search_all_pages`) -/

/-- Python truthiness of `if max_pages and page >= max_pages`: `None` and `0`
are falsy, otherwise the page bound is compared. -/
def maxPagesReached (max_pages : Option Int) (page : Int) : Bool :=
  match max_pages with
  | some m => m ≠ 0 && page ≥ m
  | none => false

/-- `FinnClient.search_all_pages`, with the underlying `self.search` call
abstracted as `searchFn : page → SearchResults` (each loop iteration performs
exactly one such call, i.e. one fetch).  The loop yields the page's items,
then stops if `has_next_page` is false, then stops if `max_pages` is truthy
and reached, else recurses on `page + 1`.  Returns the flattened items of a
full consumption together with the number of underlying search calls; `none`
means the `while True` loop did not terminate within `fuel` iterations. -/
def search_all_pages (searchFn : Int → SearchResults) (max_pages : Option Int) :
    Nat → Int → Option (List ListingBasic × Nat)
  | 0, _ => none
  | fuel + 1, page =>
      if (searchFn page).has_next_page = false then some ((searchFn page).items, 1)
      else if maxPagesReached max_pages page then some ((searchFn page).items, 1)
      else
        (search_all_pages searchFn max_pages fuel (page + 1)).map
          (fun lc => ((searchFn page).items ++ lc.1, lc.2 + 1))

theorem search_all_pages_bounded (searchFn : Int → SearchResults) (m : Int) :
    ∀ (fuel : Nat) (page : Int), 1 ≤ page → page ≤ m → m < page + fuel →
      ∃ out : List ListingBasic × Nat,
        search_all_pages searchFn (some m) fuel page = some out
          ∧ (out.2 : Int) ≤ m + 1 - page
  | 0, page, h1, h2, h3 => absurd h3 (by omega)
  | fuel + 1, page, h1, h2, h3 => by
      cases hnext : (searchFn page).has_next_page with
      | false =>
          refine ⟨((searchFn page).items, 1), ?_, by simp; omega⟩
          simp [search_all_pages, hnext]
      | true =>
          by_cases hstop : maxPagesReached (some m) page = true
          · refine ⟨((searchFn page).items, 1), ?_, by simp; omega⟩
            simp [search_all_pages, hnext, hstop]
          · have hm0 : m ≠ 0 := by omega
            have hpm : page < m := by
              simp [maxPagesReached, hm0] at hstop
              omega
            obtain ⟨out, hout, hc⟩ := search_all_pages_bounded searchFn m fuel (page + 1)
              (by omega) (by omega) (by omega)
            refine ⟨((searchFn page).items ++ out.1, out.2 + 1), ?_, by push_cast; omega⟩
            simp [search_all_pages, hnext, hstop, hout]

/-- **C9 (confirmed).** Fully consuming the traversal with `max_pages = 2`
terminates within 2 underlying search calls (hence at most 2 fetches),
whatever `has_next_page` says on the second page; in general with
`max_pages = m ≥ 1` it terminates within `m` calls, and whenever a page
reports `has_next_page = false` the traversal stops with that page's items
immediately (whichever bound is hit first). -/
theorem c9_search_all_pages (searchFn : Int → SearchResults) :
    (∃ out : List ListingBasic × Nat,
        search_all_pages searchFn (some 2) 2 1 = some out ∧ out.2 ≤ 2)
    ∧ (∀ m : Int, 1 ≤ m → ∃ out : List ListingBasic × Nat,
        search_all_pages searchFn (some m) m.toNat 1 = some out ∧ (out.2 : Int) ≤ m)
    ∧ (∀ (mp : Option Int) (fuel : Nat) (page : Int),
        (searchFn page).has_next_page = false →
        search_all_pages searchFn mp (fuel + 1) page = some ((searchFn page).items, 1)) := by
  refine ⟨?_, ?_, ?_⟩
  · obtain ⟨out, hout, hc⟩ := search_all_pages_bounded searchFn 2 2 1
      (by norm_num) (by norm_num) (by norm_num)
    exact ⟨out, hout, by omega⟩
  · intro m hm
    obtain ⟨out, hout, hc⟩ := search_all_pages_bounded searchFn m m.toNat 1
      (by norm_num) hm (by omega)
    exact ⟨out, hout, by omega⟩
  · intro mp fuel page hnext
    simp [search_all_pages, hnext]

/-- A search stub whose every page claims to have a next page. -/
def searchFnMore : Int → SearchResults :=
  fun p =>
    { items := [], total_count := 200, page := p, per_page := 51,
      has_next_page := true, search_type := "lettings", filters_applied := {} }

/-- Witness for C9: with every page claiming a successor, `max_pages = 2`
still stops after exactly 2 search calls. -/
theorem c9_search_all_pages_witness :
    (∃ out : List ListingBasic × Nat,
      search_all_pages searchFnMore (some 2) 2 1 = some out ∧ out.2 ≤ 2)
    ∧ search_all_pages searchFnMore (some 2) 2 1 = some ([], 2) :=
  ⟨(c9_search_all_pages searchFnMore).1, rfl⟩

/-! ## Detail extraction (`FinnClient._parse_listing_details`) -/

/-- Generic `re.search`: try the anchored matcher at each position, left to
right (also at the end-of-string position, where all patterns here fail). -/
def reSearch {α : Type} (f : List Char → Option α) : List Char → Option α
  | [] => f []
  | s@(_ :: t) =>
      match f s with
      | some r => some r
      | none => reSearch f t

/-- `<h1[^>]*>([^<]+)</h1>` anchored at the head of `s` (deterministic: `>`
terminates the greedy `[^>]*`, `<` terminates the greedy `([^<]+)`). -/
def h1At (s : List Char) : Option (List Char) :=
  match expectLit "<h1".data s with
  | none => none
  | some r =>
      match expectLit ">".data (r.drop (r.takeWhile (· ≠ '>')).length) with
      | none => none
      | some r2 =>
          if r2.takeWhile (· ≠ '<') = [] then none
          else
            match expectLit "</h1>".data
                (r2.drop (r2.takeWhile (· ≠ '<')).length) with
            | none => none
            | some _ => some (r2.takeWhile (· ≠ '<'))

/-- `key\s*:\s*"([^"]+)"` anchored at the head of `s` (used with the quoted
keys `"streetAddress"`, `"addressLocality"`, `"description"`). -/
def jsonStrField (key : List Char) (s : List Char) : Option (List Char) :=
  match expectLit key s with
  | none => none
  | some r =>
      match expectLit ":".data (r.drop (r.takeWhile isPySpace).length) with
      | none => none
      | some r2 =>
          match expectLit "\"".data (r2.drop (r2.takeWhile isPySpace).length) with
          | none => none
          | some r3 =>
              if r3.takeWhile (· ≠ '"') = [] then none
              else
                match expectLit "\"".data
                    (r3.drop (r3.takeWhile (· ≠ '"')).length) with
                | none => none
                | some _ => some (r3.takeWhile (· ≠ '"'))

/-- `key\s*:\s*"(\d+)"` anchored at the head of `s` (`"postalCode"`). -/
def jsonQuotedDigits (key : List Char) (s : List Char) : Option (List Char) :=
  match expectLit key s with
  | none => none
  | some r =>
      match expectLit ":".data (r.drop (r.takeWhile isPySpace).length) with
      | none => none
      | some r2 =>
          match expectLit "\"".data (r2.drop (r2.takeWhile isPySpace).length) with
          | none => none
          | some r3 =>
              if r3.takeWhile isPyDigit = [] then none
              else
                match expectLit "\"".data
                    (r3.drop (r3.takeWhile isPyDigit).length) with
                | none => none
                | some _ => some (r3.takeWhile isPyDigit)

/-- `key\s*:\s*(\d+)` anchored at the head of `s` (`"price"`). -/
def jsonBareDigits (key : List Char) (s : List Char) : Option (List Char) :=
  match expectLit key s with
  | none => none
  | some r =>
      match expectLit ":".data (r.drop (r.takeWhile isPySpace).length) with
      | none => none
      | some r2 =>
          if (r2.drop (r2.takeWhile isPySpace).length).takeWhile isPyDigit = []
          then none
          else some ((r2.drop (r2.takeWhile isPySpace).length).takeWhile isPyDigit)

/-- `key\s*:\s*([0-9.]+)` anchored at the head of `s` (`"latitude"`,
`"longitude"`); nothing follows the greedy group. -/
def jsonNumField (key : List Char) (s : List Char) : Option (List Char) :=
  match expectLit key s with
  | none => none
  | some r =>
      match expectLit ":".data (r.drop (r.takeWhile isPySpace).length) with
      | none => none
      | some r2 =>
          if (r2.drop (r2.takeWhile isPySpace).length).takeWhile
              (fun c => isPyDigit c || c = '.') = [] then none
          else some ((r2.drop (r2.takeWhile isPySpace).length).takeWhile
              (fun c => isPyDigit c || c = '.'))

/-- Whether Python `float(s)` accepts `s`, for `s` drawn from the class
`[0-9.]+`: at most one dot and at least one digit. -/
def pyFloatOk (s : List Char) : Bool :=
  s.count '.' ≤ 1 && s.any isPyDigit

/-- `"image"\s*:\s*"(https://images\.finncdn\.no[^"]+)"` anchored at the head
of `s`; returns the capture and the input remaining after the match (for the
non-overlapping `finditer`). -/
def imgUrlAt (s : List Char) : Option (List Char × List Char) :=
  match expectLit "\"image\"".data s with
  | none => none
  | some r =>
      match expectLit ":".data (r.drop (r.takeWhile isPySpace).length) with
      | none => none
      | some r2 =>
          match expectLit "\"".data (r2.drop (r2.takeWhile isPySpace).length) with
          | none => none
          | some r3 =>
              match expectLit "https://images.finncdn.no".data r3 with
              | none => none
              | some r4 =>
                  if r4.takeWhile (· ≠ '"') = [] then none
                  else
                    match expectLit "\"".data
                        (r4.drop (r4.takeWhile (· ≠ '"')).length) with
                    | none => none
                    | some r5 =>
                        some ("https://images.finncdn.no".data ++
                          r4.takeWhile (· ≠ '"'), r5)

/-- `re.finditer` for the image-URL pattern: non-overlapping matches, scanning
left to right and resuming after each match end. -/
def finditerImgs : Nat → List Char → List (List Char)
  | 0, _ => []
  | fuel + 1, s =>
      match s with
      | [] => []
      | _ :: t =>
          match imgUrlAt s with
          | some capRest => capRest.1 :: finditerImgs fuel capRest.2
          | none => finditerImgs fuel t

/-- The `ListingDetails` dataclass (it extends `ListingBasic`).  Latitude and
longitude are floats in the source; the model keeps each value as the source
text that `float()` accepted, since the program never computes with them. -/
structure ListingDetails where
  id : String
  heading : String
  location : String
  search_type : String
  url : String
  image : Option Image := none
  price : Option String := none
  price_total : Option Int := none
  price_suggestion : Option String := none
  area : Option String := none
  bedrooms : Option Int := none
  property_type : Option String := none
  flags : List String := []
  timestamp : Option String := none
  labels : List String := []
  description : Option String := none
  address : Option String := none
  postal_code : Option String := none
  city : Option String := none
  latitude : Option String := none
  longitude : Option String := none
  floor : Option String := none
  total_floors : Option Int := none
  year_built : Option Int := none
  energy_label : Option String := none
  ownership_type : Option String := none
  facilities : List String := []
  contact_name : Option String := none
  contact_phone : Option String := none
  agency_name : Option String := none
  images : List Image := []
  viewing_dates : List String := []
  common_costs : Option Int := none
  deposit : Option Int := none
  deriving Repr, DecidableEq

/-- `", ".join(location_parts)`. -/
def joinComma : List String → String
  | [] => ""
  | [x] => x
  | x :: xs => x ++ ", " ++ joinComma xs

/-- `FinnClient._parse_listing_details`.  Independent best-effort regex passes
in source order; two of them can raise: `float()` on a latitude/longitude
capture that `[0-9.]+` matched but `float` rejects (`ValueError`), and the
final `ListingDetails(**{...})` constructor when no `<h1>` matched, because
`heading` is a required dataclass field (`TypeError`).  A field whose pattern
does not match is simply absent from the keyword dictionary. -/
def parse_listing_details (html : List Char) (listing_id : String)
    (st : SearchType) : Except PyExn ListingDetails :=
  match reSearch (jsonNumField "\"latitude\"".data) html with
  | some g =>
      if pyFloatOk g then
        parse_listing_details_lat html listing_id st (some (⟨g⟩ : String))
      else .error .valueError
  | none => parse_listing_details_lat html listing_id st none
where
  parse_listing_details_lat (html : List Char) (listing_id : String)
      (st : SearchType) (latitude? : Option String) : Except PyExn ListingDetails :=
    match reSearch (jsonNumField "\"longitude\"".data) html with
    | some g =>
        if pyFloatOk g then
          parse_listing_details_fields html listing_id st latitude?
            (some (⟨g⟩ : String))
        else .error .valueError
    | none => parse_listing_details_fields html listing_id st latitude? none
  parse_listing_details_fields (html : List Char) (listing_id : String)
      (st : SearchType) (latitude? longitude? : Option String) :
      Except PyExn ListingDetails :=
    match (reSearch h1At html).map (fun g => (⟨pyStrip g⟩ : String)) with
    | none => .error .typeError
    | some heading =>
        let address? := (reSearch (jsonStrField "\"streetAddress\"".data) html).map
          (fun g => (⟨g⟩ : String))
        let postal? := (reSearch (jsonQuotedDigits "\"postalCode\"".data) html).map
          (fun g => (⟨g⟩ : String))
        let city? := (reSearch (jsonStrField "\"addressLocality\"".data) html).map
          (fun g => (⟨g⟩ : String))
        .ok { id := listing_id
              heading := heading
              location := joinComma
                ((match address? with | some a => [a] | none => []) ++
                 (match postal? with | some p => [p] | none => []) ++
                 (match city? with | some c => [c] | none => []))
              search_type := st.value
              url := BASE_URL ++ "/realestate/" ++ st.value ++
                "/ad.html?finnkode=" ++ listing_id
              price_total := (reSearch (jsonBareDigits "\"price\"".data) html).map
                (fun g => (digitsToNat g : Int))
              description := (reSearch (jsonStrField "\"description\"".data) html).map
                (fun g => (⟨g⟩ : String))
              address := address?
              postal_code := postal?
              city := city?
              latitude := latitude?
              longitude := longitude?
              images := (finditerImgs html.length html).map
                (fun u => ({ url := ⟨u⟩ } : Image)) }

/-- **C6 (code bug).** The claim (and the spec's graceful-degradation rule)
says the detail pass returns a result with missing fields simply absent, even
without an `<h1>`; but `heading` is a required `ListingBasic` dataclass field,
so on a page with no `<h1>` the final `ListingDetails(**{...})` call raises
`TypeError`; and a latitude capture such as `"latitude": .` (matched by
`[0-9.]+`) makes `float()` raise `ValueError`.  Both evaluated here. -/
theorem c6_details_code_bug :
    parse_listing_details ([] : List Char) "123" SearchType.lettings =
      .error .typeError
    ∧ parse_listing_details ("<h1>T</h1>\"latitude\": .".data) "123"
        SearchType.lettings = .error .valueError
    ∧ (∃ d : ListingDetails,
        parse_listing_details ("<h1> Fin bolig </h1>".data) "123"
          SearchType.lettings = .ok d
        ∧ d.heading = "Fin bolig" ∧ d.address = none ∧ d.location = "") := by
  refine ⟨rfl, rfl, ⟨_, rfl, rfl, rfl, rfl⟩⟩

/-! ## Detail Resolver (`FinnClient.get_listing_details`) -/

/-- The detail URL `f"{BASE_URL}/realestate/{search_type.value}/ad.html?finnkode={listing_id}"`. -/
def detailUrl (st : SearchType) (listing_id : String) : List Char :=
  (BASE_URL ++ "/realestate/" ++ st.value ++ "/ad.html?finnkode=" ++ listing_id).data

/-- The category-probing loop of `get_listing_details`: per candidate, fetch;
a `requests.RequestException` (transport failure) is caught and the loop
advances; a response not containing `finnkode={id}` nor the bare id advances;
otherwise the detail pass runs (its exceptions are not caught).  Exhaustion
returns `None`. -/
def getDetailsAux (fetch : List Char → Except PyExn (List Char))
    (listing_id : String) : List SearchType → Except PyExn (Option ListingDetails)
  | [] => .ok none
  | st :: rest =>
      match fetch (detailUrl st listing_id) with
      | .error .transportError => getDetailsAux fetch listing_id rest
      | .error e => .error e
      | .ok html =>
          if listContains html (("finnkode=" ++ listing_id).data) = false
              && listContains html listing_id.data = false then
            getDetailsAux fetch listing_id rest
          else
            match parse_listing_details html listing_id st with
            | .error e => .error e
            | .ok d => .ok (some d)

/-- `FinnClient.get_listing_details`: probes `LETTINGS`, `HOMES`, `LEISURE`
in order. -/
def get_listing_details (fetch : List Char → Except PyExn (List Char))
    (listing_id : String) : Except PyExn (Option ListingDetails) :=
  getDetailsAux fetch listing_id
    [SearchType.lettings, SearchType.homes, SearchType.leisure]

/-- A fetch stub that always fails with a transport error. -/
def fetchFail : List Char → Except PyExn (List Char) :=
  fun _ => .error .transportError

/-- **C5 counterexample.** The claim says every operation surfaces transport
failures as exceptions, never recovering locally; but detail resolution
catches `requests.RequestException` per candidate category and, when every
fetch fails with a transport error, returns `None` instead of raising. -/
theorem c5_transport_counterexample :
    get_listing_details fetchFail "123" = .ok none := rfl

/-- **C5 (corrected).** A transport failure is surfaced uncaught by `search`
(and hence by every traversal step, which calls it); but
`get_listing_details` catches transport failures locally, advancing through
its candidate categories and degrading to `None` when all of them fail. -/
theorem c5_transport_amended :
    (∀ (fetch : List Char → Except PyExn (List Char)) (st : SearchType)
        (page : Int) (f : Filters) (e : PyExn),
        fetch (build_search_url st page f) = .error e →
        search fetch st page f = .error e)
    ∧ (∀ (fetch : List Char → Except PyExn (List Char)) (listing_id : String),
        (∀ u, fetch u = .error .transportError) →
        get_listing_details fetch listing_id = .ok none) := by
  constructor
  · intro fetch st page f e h
    simp [search, h]
  · intro fetch listing_id hall
    simp [get_listing_details, getDetailsAux, hall]

/-- Witness for the amended C5 theorem: with an always-failing transport,
`search` raises and `get_listing_details` returns `None`. -/
theorem c5_transport_amended_witness :
    search fetchFail SearchType.lettings 1 {} = .error .transportError
    ∧ get_listing_details fetchFail "123" = .ok none :=
  ⟨c5_transport_amended.1 fetchFail SearchType.lettings 1 {} .transportError rfl,
   c5_transport_amended.2 fetchFail "123" (fun _ => rfl)⟩

end Finn
